import Mathlib

/-!
Verification of the api-smoke test runner (src/index.ts) against its
natural-language specification.  The TypeScript core is shallowly embedded:
JSON values are an inductive type whose objects keep key insertion order
(mirroring JavaScript objects), header records are association lists, and
the orchestration loop of `cmdRun` is modelled with an oracle assigning each
test its transport outcome.
-/

namespace ApiSmoke

/- JSON values as JavaScript sees them.  Objects keep their key insertion
order, and arrays their element order.  Numbers are modelled as integers
(the claims under verification only involve integer numbers). -/
mutual

inductive Json where
  | null : Json
  | bool (b : Bool) : Json
  | num (n : Int) : Json
  | str (s : String) : Json
  | arr (elems : JsonArr) : Json
  | obj (fields : JsonObj) : Json

inductive JsonArr where
  | nil : JsonArr
  | cons (hd : Json) (tl : JsonArr) : JsonArr

inductive JsonObj where
  | nil : JsonObj
  | cons (key : String) (val : Json) (tl : JsonObj) : JsonObj

end

/-- One character of JSON string escaping, as `JSON.stringify` performs it. -/
def escapeChar (ch : Char) : String :=
  if ch = '"' then "\\\""
  else if ch = '\\' then "\\\\"
  else if ch = '\n' then "\\n"
  else if ch = '\t' then "\\t"
  else if ch = '\r' then "\\r"
  else String.singleton ch

/-- JSON string quoting, as `JSON.stringify` renders a string. -/
def jsonQuote (s : String) : String :=
  "\"" ++ String.join (s.toList.map escapeChar) ++ "\""

/- `JSON.stringify`, the serialization the source uses both to compare body
fields (line 269) and to render expected/actual values in check strings.
Object fields are rendered in insertion order, exactly as JavaScript does. -/
mutual

def stringify : Json → String
  | .null => "null"
  | .bool b => if b then "true" else "false"
  | .num n => toString n
  | .str s => jsonQuote s
  | .arr xs => "[" ++ stringifyArr xs ++ "]"
  | .obj fs => "\x7b" ++ stringifyObj fs ++ "\x7d"

def stringifyArr : JsonArr → String
  | .nil => ""
  | .cons x .nil => stringify x
  | .cons x (.cons y tl) => stringify x ++ "," ++ stringifyArr (.cons y tl)

def stringifyObj : JsonObj → String
  | .nil => ""
  | .cons k v .nil => jsonQuote k ++ ":" ++ stringify v
  | .cons k v (.cons k2 v2 tl) =>
      jsonQuote k ++ ":" ++ stringify v ++ "," ++ stringifyObj (.cons k2 v2 tl)

end

/-- First field of a JavaScript object with the given key. -/
def jsonObjFind : JsonObj → String → Option Json
  | .nil, _ => none
  | .cons k v tl, key => if k == key then some v else jsonObjFind tl key

/-- Length of a JSON array. -/
def jsonArrLen : JsonArr → Nat
  | .nil => 0
  | .cons _ tl => jsonArrLen tl + 1

/-- Element of a JSON array at an index, if in range. -/
def jsonArrGet : JsonArr → Nat → Option Json
  | .nil, _ => none
  | .cons x _, 0 => some x
  | .cons _ tl, n + 1 => jsonArrGet tl n

/-- Models line 268, `typeof response.body === "object" ? response.body?.[key]
: undefined`: property access succeeds on objects; on arrays a canonical
numeric index string or "length" resolves (JavaScript array properties);
`null` has `typeof` "object" but optional chaining yields undefined; all
primitive bodies yield undefined. -/
def jsGet (v : Json) (key : String) : Option Json :=
  match v with
  | .obj fs => jsonObjFind fs key
  | .arr xs =>
      if key == "length" then some (.num (jsonArrLen xs))
      else
        match key.toNat? with
        | some n => if toString n == key then jsonArrGet xs n else none
        | none => none
  | _ => none

/-- Whether `needle` occurs as a contiguous subsequence of `haystack`. -/
def listContainsSeq (needle : List Char) : List Char → Bool
  | [] => needle.isEmpty
  | x :: xs => needle.isPrefixOf (x :: xs) || listContainsSeq needle xs

/-- JavaScript `s.includes(target)`: literal substring test. -/
def jsIncludes (s target : String) : Bool :=
  listContainsSeq target.toList s.toList

/-- JavaScript truthiness of a JSON value (used by guards such as
`if (test.expect.bodyContains)` and `body ? JSON.stringify(body) : undefined`). -/
def jsTruthy : Json → Bool
  | .null => false
  | .bool b => b
  | .num n => n != 0
  | .str s => s != ""
  | .arr _ => true
  | .obj _ => true

/-- JavaScript `s.toLowerCase()` on the ASCII strings the claims involve,
written over the character list so that it evaluates by kernel reduction. -/
def strToLower (s : String) : String :=
  String.mk (s.data.map Char.toLower)

/-- A `string | string[]` field of the `expect` block. -/
inductive StrOrStrs where
  | one (s : String)
  | many (l : List String)
deriving DecidableEq

/-- JavaScript truthiness of a `string | string[]` value: the empty string is
falsy, every array (even empty) is truthy. -/
def strOrStrsTruthy : StrOrStrs → Bool
  | .one s => s != ""
  | .many _ => true

/-- The loop target `Array.isArray(v) ? v : [v]` (lines 280-282, 294-296). -/
def strOrStrsList : StrOrStrs → List String
  | .one s => [s]
  | .many l => l

/-- The `expect` block of a test case (all assertion kinds optional). -/
structure Expectation where
  status : Option Nat
  body : Option (List (String × Json))
  bodyContains : Option StrOrStrs
  bodyNotContains : Option StrOrStrs
  headerContains : Option (List (String × String))

/-- A test case, as authored in the config. -/
structure TestCase where
  name : String
  path : String
  method : String
  headers : Option (List (String × String))
  body : Option Json
  expect : Expectation

/-- The normalized response produced by `makeRequest`: verbatim status,
header record, the body decoded as JSON when possible (`body`), and the raw
body text (`bodyRaw`). -/
structure Response where
  status : Nat
  headers : List (String × String)
  body : Json
  bodyRaw : String

/-- One assertion outcome (`{ check, passed, detail? }`). -/
structure Assertion where
  check : String
  passed : Bool
  detail : Option String
deriving DecidableEq

/-- One per-test verdict (`TestResult` in the source). -/
structure TestResult where
  name : String
  passed : Bool
  status : Option Nat
  expectedStatus : Option Nat
  responseTime : Nat
  assertions : List Assertion
  error : Option String

/-- Lookup in a header record (`m[key]`), first match wins. -/
def recordLookup (m : List (String × String)) (key : String) : Option String :=
  (m.find? (fun p => p.1 == key)).map (fun p => p.2)

/-- Status check block of `checkAssertions` (lines 255-263): present iff
`test.expect.status !== undefined`, depends only on the status expectation
and the response. -/
def statusChecks (st : Option Nat) (response : Response) : List Assertion :=
  match st with
  | some s =>
      [{ check := "Status is " ++ toString s,
         passed := response.status == s,
         detail := if response.status == s then none
                   else some ("Got " ++ toString response.status) }]
  | none => []

/-- Body field check block of `checkAssertions` (lines 265-276): one outcome
per declared key, observed value via JavaScript property access on the parsed
body (`jsGet`), compared by `JSON.stringify` equality.  `JSON.stringify` of an
absent value is undefined, never equal to the stringification of a declared
expected value; the `Got ...` detail renders undefined as "undefined" (the
template-literal coercion). -/
def bodyFieldChecks (bodyExp : Option (List (String × Json))) (response : Response) :
    List Assertion :=
  match bodyExp with
  | some entries =>
      entries.map (fun p =>
        let actual := jsGet response.body p.1
        let passed := actual.map stringify == some (stringify p.2)
        { check := "body." ++ p.1 ++ " === " ++ stringify p.2,
          passed := passed,
          detail := if passed then none
                    else some ("Got " ++ (match actual.map stringify with
                      | some s => s
                      | none => "undefined")) })
  | none => []

/-- Body contains block of `checkAssertions` (lines 278-290): the guard
`if (test.expect.bodyContains)` skips a falsy value (empty string); a single
string becomes a one-element list; one outcome per term, no detail field. -/
def bodyContainsChecks (v : Option StrOrStrs) (response : Response) : List Assertion :=
  match v with
  | some w =>
      if strOrStrsTruthy w then
        (strOrStrsList w).map (fun term =>
          { check := "Body contains \"" ++ term ++ "\"",
            passed := jsIncludes response.bodyRaw term,
            detail := none })
      else []
  | none => []

/-- Body not-contains block of `checkAssertions` (lines 292-304). -/
def bodyNotContainsChecks (v : Option StrOrStrs) (response : Response) : List Assertion :=
  match v with
  | some w =>
      if strOrStrsTruthy w then
        (strOrStrsList w).map (fun term =>
          { check := "Body doesn't contain \"" ++ term ++ "\"",
            passed := !jsIncludes response.bodyRaw term,
            detail := none })
      else []
  | none => []

/-- Header contains block of `checkAssertions` (lines 306-317): the
expectation key is lowercased for the lookup; the JavaScript pass condition
`actual ? actual.includes(expected) : false` treats an empty header value as
missing (falsy).  The failure detail models the source's template literal
`Got "` followed by `actual || "(missing)}"`; that template is malformed in
the source (the brace sits inside the fallback string literal and the
template is never properly closed), so we take its naive reading, keeping the
stray brace in the fallback text. -/
def headerChecks (hc : Option (List (String × String))) (response : Response) :
    List Assertion :=
  match hc with
  | some entries =>
      entries.map (fun p =>
        let actual := recordLookup response.headers (strToLower p.1)
        let passed := match actual with
          | some v => if v != "" then jsIncludes v p.2 else false
          | none => false
        { check := "Header " ++ p.1 ++ " contains \"" ++ p.2 ++ "\"",
          passed := passed,
          detail := if passed then none
                    else some ("Got \"" ++ (match actual with
                      | some v => if v != "" then v else "(missing)\x7d"
                      | none => "(missing)\x7d")) })
  | none => []

/-- The assertion evaluator `checkAssertions` (lines 249-320): builds the
outcome list by appending the five blocks in source order, exactly as the
source pushes onto `results`. -/
def checkAssertions (test : TestCase) (response : Response) : List Assertion :=
  let results : List Assertion := []
  let results := results ++ (match test.expect.status with
    | some s =>
        [{ check := "Status is " ++ toString s,
           passed := response.status == s,
           detail := if response.status == s then none
                     else some ("Got " ++ toString response.status) }]
    | none => [])
  let results := results ++ (match test.expect.body with
    | some entries =>
        entries.map (fun p =>
          let actual := jsGet response.body p.1
          let passed := actual.map stringify == some (stringify p.2)
          { check := "body." ++ p.1 ++ " === " ++ stringify p.2,
            passed := passed,
            detail := if passed then none
                      else some ("Got " ++ (match actual.map stringify with
                        | some s => s
                        | none => "undefined")) })
    | none => [])
  let results := results ++ (match test.expect.bodyContains with
    | some w =>
        if strOrStrsTruthy w then
          (strOrStrsList w).map (fun term =>
            { check := "Body contains \"" ++ term ++ "\"",
              passed := jsIncludes response.bodyRaw term,
              detail := none })
        else []
    | none => [])
  let results := results ++ (match test.expect.bodyNotContains with
    | some w =>
        if strOrStrsTruthy w then
          (strOrStrsList w).map (fun term =>
            { check := "Body doesn't contain \"" ++ term ++ "\"",
              passed := !jsIncludes response.bodyRaw term,
              detail := none })
        else []
    | none => [])
  let results := results ++ (match test.expect.headerContains with
    | some entries =>
        entries.map (fun p =>
          let actual := recordLookup response.headers (strToLower p.1)
          let passed := match actual with
            | some v => if v != "" then jsIncludes v p.2 else false
            | none => false
          { check := "Header " ++ p.1 ++ " contains \"" ++ p.2 ++ "\"",
            passed := passed,
            detail := if passed then none
                      else some ("Got \"" ++ (match actual with
                        | some v => if v != "" then v else "(missing)\x7d"
                        | none => "(missing)\x7d")) })
    | none => [])
  results

/-- Sets a key in a header record, JavaScript-object style: an existing key
is updated in place, a new key is appended at the end.  (JavaScript objects
never hold duplicate keys, so replacing the first occurrence is faithful.) -/
def recordSet : List (String × String) → String → String → List (String × String)
  | [], key, v => [(key, v)]
  | p :: ms, key, v =>
      if p.1 == key then (key, v) :: ms else p :: recordSet ms key v

/-- JavaScript object spread `{...base, ...overrides}` on string records:
later entries override earlier ones on (case-sensitive) key collision. -/
def recordMerge (base overrides : List (String × String)) : List (String × String) :=
  overrides.foldl (fun acc p => recordSet acc p.1 p.2) base

/-- Header merge in `runTest` (line 341):
`{ ...envHeaders, ...(test.headers || \x7b\x7d) }`. -/
def mergedHeaders (envHeaders : List (String × String)) (test : TestCase) :
    List (String × String) :=
  recordMerge envHeaders (test.headers.getD [])

/-- Request header construction in `makeRequest` (lines 210-217): the
User-Agent default is spread first, so caller headers override it; a JSON
Content-Type is attached when a body is serialized (`body` truthy) and the
caller set no truthy Content-Type. -/
def buildReqHeaders (headers : List (String × String)) (hasBody : Bool) :
    List (String × String) :=
  let reqHeaders := recordMerge [("User-Agent", "api-smoke/1.0.0")] headers
  if hasBody && !(match recordLookup reqHeaders "Content-Type" with
      | some v => v != ""
      | none => false) then
    recordSet reqHeaders "Content-Type" "application/json"
  else reqHeaders

/-- The full header record dispatched for a test: `runTest`'s merge feeding
`makeRequest`'s request-header construction. -/
def dispatchedHeaders (test : TestCase) (envHeaders : List (String × String)) :
    List (String × String) :=
  buildReqHeaders (mergedHeaders envHeaders test)
    (match test.body with
      | some b => jsTruthy b
      | none => false)

/-- JavaScript `test.expect.status || null` (line 333): a zero status
expectation is falsy and collapses to null. -/
def expectedStatusField (st : Option Nat) : Option Nat :=
  match st with
  | some s => if s == 0 then none else some s
  | none => none

/-- The test runner `runTest` (lines 322-355), with the network abstracted:
`transport` is the settled outcome of `makeRequest` and `elapsed` the
measured wall-clock time.  On transport failure the catch block records the
message and leaves status null and assertions empty; on success the
assertions are evaluated and `passed` is their conjunction. -/
def runTest (test : TestCase) (transport : Except String Response) (elapsed : Nat) :
    TestResult :=
  match transport with
  | .error msg =>
      { name := test.name, passed := false, status := none,
        expectedStatus := expectedStatusField test.expect.status,
        responseTime := elapsed, assertions := [], error := some msg }
  | .ok response =>
      let assertions := checkAssertions test response
      { name := test.name,
        passed := assertions.all (fun a => a.passed),
        status := some response.status,
        expectedStatus := expectedStatusField test.expect.status,
        responseTime := elapsed, assertions := assertions, error := none }

/-- Sequential loop of `cmdRun` (lines 427-443) applied to the verdicts in
authored order: each verdict is pushed, and with `bail` set a non-passed
verdict stops the loop immediately after being pushed. -/
def runSeq (bail : Bool) : List TestResult → List TestResult
  | [] => []
  | r :: rs => if bail && !r.passed then [r] else r :: runSeq bail rs

/-- The verdict list `cmdRun` collects (lines 412-443): in parallel mode a
`Promise.all` over `tests.map(runTest ...)`, whose settled array preserves
authored order; in sequential mode the bail-aware loop.  The per-test verdict
is abstracted as an oracle since it involves the network. -/
def cmdRunResults (parallel bail : Bool) (oracle : TestCase → TestResult)
    (tests : List TestCase) : List TestResult :=
  if parallel then tests.map oracle
  else runSeq bail (tests.map oracle)

/-- Process exit code derivation (line 463): `process.exit(1)` when some
verdict is not passed, otherwise the process ends normally with code 0. -/
def exitCode (results : List TestResult) : Nat :=
  if results.any (fun r => !r.passed) then 1 else 0

/-- One environment entry of the config
(`\x7b baseUrl: string; headers?: Record<string, string> \x7d`). -/
structure EnvDef where
  baseUrl : String
  headers : Option (List (String × String))
deriving DecidableEq

/-- `config.environments?.[name]`: lookup in the optional environments
mapping. -/
def lookupEnvs (environments : Option (List (String × EnvDef))) (name : String) :
    Option EnvDef :=
  match environments with
  | some m => (m.find? (fun p => p.1 == name)).map (fun p => p.2)
  | none => none

/-- Environment resolution in `cmdRun` (line 401):
`config.environments?.[args.env] || config.environments?.["default"]`. -/
def resolveEnv (environments : Option (List (String × EnvDef))) (name : String) :
    Option EnvDef :=
  match lookupEnvs environments name with
  | some e => some e
  | none => lookupEnvs environments "default"

/-- `env?.baseUrl || ""` (line 402); on a string, `|| ""` is the identity. -/
def resolvedBaseUrl (environments : Option (List (String × EnvDef))) (name : String) :
    String :=
  match resolveEnv environments name with
  | some e => e.baseUrl
  | none => ""

/-- `env?.headers || \x7b\x7d` (line 403). -/
def resolvedEnvHeaders (environments : Option (List (String × EnvDef))) (name : String) :
    List (String × String) :=
  match resolveEnv environments name with
  | some e => e.headers.getD []
  | none => []

/-- Case-insensitive header lookup, the spec's reading of the header-contains
check; compared against the source's lowercased-key lookup. -/
def ciLookup (headers : List (String × String)) (key : String) : Option String :=
  (headers.find? (fun p => strToLower p.1 == strToLower key)).map (fun p => p.2)

/-- The expectation block with nothing declared. -/
def emptyExpect : Expectation :=
  { status := none, body := none, bodyContains := none,
    bodyNotContains := none, headerContains := none }

/-- With `bail` set, the sequential loop keeps exactly the verdicts up to and
including the first non-passed one. -/
theorem runSeq_bail_eq_take (rs : List TestResult) :
    runSeq true rs = rs.take ((rs.takeWhile (fun r => r.passed)).length + 1) := by
  induction rs with
  | nil => rfl
  | cons r rs ih =>
      cases hp : r.passed with
      | true => simp [runSeq, hp, List.takeWhile_cons, ih]
      | false => simp [runSeq, hp, List.takeWhile_cons]

/-- A verdict `runTest` produces can only carry a transport error message
when it is not passed. -/
theorem runTest_passed_error (test : TestCase) (tr : Except String Response) (e : Nat) :
    (runTest test tr e).passed = true → (runTest test tr e).error = none := by
  cases tr <;> simp [runTest]

/-- C1: for every test whose expectation set is empty, any transport-level
response yields a verdict with `passedOverall = true` — `checkAssertions`
emits no outcomes and the conjunction over the empty list is vacuously
true. -/
theorem c1_no_expectations_passes (test : TestCase) (response : Response) (elapsed : Nat)
    (h : test.expect = emptyExpect) :
    (runTest test (.ok response) elapsed).passed = true := by
  simp [runTest, checkAssertions, h, emptyExpect]

/-- C1 witness: a concrete expectation-free test against a concrete 200
response passes. -/
theorem c1_witness :
    (runTest ⟨"health", "/health", "GET", none, none, emptyExpect⟩
      (.ok ⟨200, [], .null, ""⟩) 5).passed = true :=
  c1_no_expectations_passes _ _ _ rfl

/-- C2: for every test whose request fails at the transport level, the
verdict records the failure message in `error`, a null observed status, an
empty assertion list, and `passed = false` — the catch block of `runTest`
never reaches `checkAssertions`. -/
theorem c2_transport_failure_verdict (test : TestCase) (msg : String) (elapsed : Nat) :
    (runTest test (.error msg) elapsed).error = some msg ∧
    (runTest test (.error msg) elapsed).status = none ∧
    (runTest test (.error msg) elapsed).assertions = [] ∧
    (runTest test (.error msg) elapsed).passed = false :=
  ⟨rfl, rfl, rfl, rfl⟩

/-- C3: in sequential mode with `bail = true`, the report is exactly the
prefix of the authored verdicts ending at the first non-passed one, so its
length is the 1-based index of the first failing test — or the full test
count when every verdict passes (the `min`). Tests after the first failure
are absent from the report entirely. -/
theorem c3_sequential_bail_report (oracle : TestCase → TestResult) (tests : List TestCase) :
    cmdRunResults false true oracle tests
      = (tests.map oracle).take
          (((tests.map oracle).takeWhile (fun r => r.passed)).length + 1) ∧
    (cmdRunResults false true oracle tests).length
      = min tests.length
          (((tests.map oracle).takeWhile (fun r => r.passed)).length + 1) := by
  have h := runSeq_bail_eq_take (tests.map oracle)
  constructor
  · simpa [cmdRunResults] using h
  · simp only [cmdRunResults, if_neg (by simp : ¬(false = true)), h, List.length_take,
      List.length_map]
    omega

/-- C4: in parallel mode the report is the authored tests mapped through the
runner — one verdict per authored test, in authored order (`Promise.all`
preserves the order of the mapped array) — and the bail flag has no effect
on the produced report. -/
theorem c4_parallel_report (oracle : TestCase → TestResult) (tests : List TestCase)
    (bail : Bool) :
    cmdRunResults true bail oracle tests = tests.map oracle ∧
    (cmdRunResults true bail oracle tests).length = tests.length ∧
    cmdRunResults true bail oracle tests = cmdRunResults true (!bail) oracle tests := by
  refine ⟨rfl, ?_, rfl⟩
  simp [cmdRunResults]

/-- C5: for every completed run, the process exit code is 0 iff no verdict
in the report is failed or transport-errored (vacuously so for a zero-test
suite): under `runTest`, a transport-errored verdict is never passed, so
`results.some(r => !r.passed)` captures both failure kinds. -/
theorem c5_exit_code (runs : List (TestCase × Except String Response × Nat)) :
    exitCode (runs.map (fun x => runTest x.1 x.2.1 x.2.2)) = 0 ↔
      ∀ r ∈ runs.map (fun x => runTest x.1 x.2.1 x.2.2),
        r.passed = true ∧ r.error = none := by
  have key : exitCode (runs.map (fun x => runTest x.1 x.2.1 x.2.2)) = 0 ↔
      (runs.map (fun x => runTest x.1 x.2.1 x.2.2)).any (fun r => !r.passed) = false := by
    unfold exitCode
    cases (runs.map (fun x => runTest x.1 x.2.1 x.2.2)).any (fun r => !r.passed) <;> simp
  rw [key]
  constructor
  · intro h r hr
    have hp : r.passed = true := by
      have := List.any_eq_false.mp h r hr
      simpa using this
    refine ⟨hp, ?_⟩
    obtain ⟨x, hx, rfl⟩ := List.mem_map.mp hr
    exact runTest_passed_error _ _ _ hp
  · intro h
    apply List.any_eq_false.mpr
    intro r hr
    simp [(h r hr).1]

/-- C7: the assertion evaluator emits outcomes in the fixed order status,
body-field (declared order), body-contains, body-not-contains,
header-contains; each block is a function of its own expectation field and
the response alone, so every applicable check is evaluated regardless of the
outcome of earlier ones. -/
theorem c7_evaluation_order (test : TestCase) (response : Response) :
    checkAssertions test response
      = statusChecks test.expect.status response
        ++ bodyFieldChecks test.expect.body response
        ++ bodyContainsChecks test.expect.bodyContains response
        ++ bodyNotContainsChecks test.expect.bodyNotContains response
        ++ headerChecks test.expect.headerContains response := rfl

/-- Test case used for the C6 counterexample: one body-field expectation,
`data` expected to equal the object with fields a=1, b=2 in that insertion
order. -/
def c6Test : TestCase :=
  { name := "t", path := "/", method := "GET", headers := none, body := none,
    expect := { emptyExpect with
      body := some [("data", .obj (.cons "a" (.num 1) (.cons "b" (.num 2) .nil)))] } }

/-- C6 counterexample: two responses whose `data` field holds structurally
identical objects differing only in key insertion order get different
outcomes from the body-field check — the source compares by
`JSON.stringify`, which follows insertion order, so equality does depend on
incidental key ordering, contrary to the claim. -/
theorem c6_counterexample :
    ((checkAssertions c6Test
        ⟨200, [],
          .obj (.cons "data" (.obj (.cons "a" (.num 1) (.cons "b" (.num 2) .nil))) .nil),
          ""⟩).map (fun a => a.passed) = [true]) ∧
    ((checkAssertions c6Test
        ⟨200, [],
          .obj (.cons "data" (.obj (.cons "b" (.num 2) (.cons "a" (.num 1) .nil))) .nil),
          ""⟩).map (fun a => a.passed) = [false]) :=
  ⟨by decide, by decide⟩

/-- C6 (amended): for every declared body-field expectation key, the check
extracts the observed value by JavaScript property access on `parsedBody`
when its runtime type is object (absent otherwise), and passes iff the JSON
serialization of the observed value equals the JSON serialization of the
expected value — a comparison that follows object key insertion order. -/
theorem c6_body_field_stringify_eq (entries : List (String × Json)) (response : Response) :
    (bodyFieldChecks (some entries) response).map (fun a => a.passed)
      = entries.map (fun p =>
          (jsGet response.body p.1).map stringify == some (stringify p.2)) := by
  simp [bodyFieldChecks, List.map_map]

/-- Lowercasing the looked-up key implements case-insensitive header lookup,
provided the response's header keys are lowercase (as Node's normalized
response headers are). -/
theorem recordLookup_toLower_eq_ciLookup (headers : List (String × String)) (key : String)
    (hkeys : ∀ p ∈ headers, strToLower p.1 = p.1) :
    recordLookup headers (strToLower key) = ciLookup headers key := by
  induction headers with
  | nil => rfl
  | cons p hs ih =>
      have hp : strToLower p.1 = p.1 := hkeys p (List.mem_cons_self _ _)
      have ihh := ih (fun q hq => hkeys q (List.mem_cons_of_mem _ hq))
      simp only [recordLookup, ciLookup, List.find?_cons] at ihh ⊢
      rw [hp]
      cases hc : (p.1 == strToLower key) <;> simp_all

/-- C8 (amended): for every header-contains expectation, the lookup is
case-insensitive (given the lowercase header keys of the normalized
response) and the check passes iff the header is present with a non-empty
value containing the expected string as a literal substring — the source's
`actual ? actual.includes(expected) : false` treats an empty header value
like a missing one.  The outcome is always produced, never raised, and its
detail is populated exactly when the check fails. -/
theorem c8_header_contains (entries : List (String × String)) (response : Response)
    (hkeys : ∀ p ∈ response.headers, strToLower p.1 = p.1) :
    (headerChecks (some entries) response).map (fun a => (a.passed, a.detail.isSome))
      = entries.map (fun p =>
          let pass := match ciLookup response.headers p.1 with
            | some v => v != "" && jsIncludes v p.2
            | none => false
          (pass, !pass)) := by
  simp only [headerChecks, List.map_map]
  apply List.map_congr_left
  intro p hp
  have hlk := recordLookup_toLower_eq_ciLookup response.headers p.1 hkeys
  simp only [Function.comp_apply, hlk]
  cases hc : ciLookup response.headers p.1 with
  | none => simp
  | some v =>
      cases hv : (v != "") with
      | false => simp [hv]
      | true => cases hi : jsIncludes v p.2 <;> simp [hv, hi]

/-- Response used for the C8 witness: lowercase header keys, as produced by
the request executor. -/
def c8WitnessResp : Response :=
  { status := 200, headers := [("content-type", "application/json; charset=utf-8")],
    body := .null, bodyRaw := "" }

/-- C8 witness: a concrete mixed-case header-contains expectation evaluated
against a concrete response with lowercase header keys. -/
theorem c8_witness :
    (headerChecks (some [("Content-Type", "application/json")]) c8WitnessResp).map
        (fun a => (a.passed, a.detail.isSome))
      = [("Content-Type", "application/json")].map (fun p =>
          let pass := match ciLookup c8WitnessResp.headers p.1 with
            | some v => v != "" && jsIncludes v p.2
            | none => false
          (pass, !pass)) :=
  c8_header_contains [("Content-Type", "application/json")] c8WitnessResp (by decide)

/-- C8 counterexample: a header that is present but bound to the empty
string.  The empty string contains the empty expected substring, so by the
claim the check should pass; the source's truthiness test on `actual` makes
it fail. -/
theorem c8_counterexample :
    recordLookup [("x-token", "")] (strToLower "X-Token") = some "" ∧
    jsIncludes "" "" = true ∧
    (headerChecks (some [("X-Token", "")])
        ⟨200, [("x-token", "")], .null, ""⟩).map (fun a => a.passed) = [false] :=
  ⟨by decide, by decide, by decide⟩

/-- Updating one key of a record leaves the lookup of any other key
unchanged. -/
theorem recordLookup_recordSet_other (m : List (String × String)) (key v k : String)
    (h : k ≠ key) : recordLookup (recordSet m key v) k = recordLookup m k := by
  have hkk : (key == k) = false := beq_eq_false_iff_ne.mpr (fun he => h he.symm)
  induction m with
  | nil => simp [recordSet, recordLookup, hkk]
  | cons p ms ih =>
      cases hc : (p.1 == key) with
      | true =>
          have hpk : (p.1 == k) = false := by
            have hp : p.1 = key := beq_iff_eq.mp hc
            exact beq_eq_false_iff_ne.mpr (fun he => h (hp ▸ he).symm)
          simp [recordSet, recordLookup, hc, hkk, hpk, List.find?_cons]
      | false =>
          simp only [recordSet, hc, Bool.false_eq_true, if_false, recordLookup,
            List.find?_cons]
          cases hk : (p.1 == k) with
          | true => simp
          | false =>
              simp only [recordLookup] at ih
              simpa using ih

/-- Updating a key of a record makes its lookup return the new value. -/
theorem recordLookup_recordSet_same (m : List (String × String)) (key v : String) :
    recordLookup (recordSet m key v) key = some v := by
  induction m with
  | nil => simp [recordSet, recordLookup]
  | cons p ms ih =>
      cases hc : (p.1 == key) with
      | true => simp [recordSet, recordLookup, hc, List.find?_cons]
      | false =>
          simp only [recordSet, hc, Bool.false_eq_true, if_false, recordLookup,
            List.find?_cons, hc]
          simp only [recordLookup] at ih
          simpa using ih

/-- Merging overrides that never mention a key leaves that key's lookup
unchanged. -/
theorem recordLookup_recordMerge_notin (base overrides : List (String × String))
    (k : String) (h : ∀ p ∈ overrides, p.1 ≠ k) :
    recordLookup (recordMerge base overrides) k = recordLookup base k := by
  induction overrides generalizing base with
  | nil => rfl
  | cons p os ih =>
      have hp : p.1 ≠ k := h p (List.mem_cons_self _ _)
      have step : recordMerge base (p :: os) = recordMerge (recordSet base p.1 p.2) os := rfl
      rw [step, ih _ (fun q hq => h q (List.mem_cons_of_mem _ hq))]
      exact recordLookup_recordSet_other _ _ _ _ (fun he => hp he.symm)

/-- Merging overrides preserves the presence of a key. -/
theorem recordLookup_recordMerge_isSome (overrides base : List (String × String))
    (k : String) (h : (recordLookup base k).isSome = true) :
    (recordLookup (recordMerge base overrides) k).isSome = true := by
  induction overrides generalizing base with
  | nil => exact h
  | cons p os ih =>
      have step : recordMerge base (p :: os) = recordMerge (recordSet base p.1 p.2) os := rfl
      rw [step]
      apply ih
      by_cases hk : k = p.1
      · subst hk
        rw [recordLookup_recordSet_same]
        rfl
      · rw [recordLookup_recordSet_other _ _ _ _ hk]
        exact h

/-- Every key of `recordSet m key v` is a key of `m` or the set key. -/
theorem recordSet_keys (P : String → Prop) (m : List (String × String)) (key v : String)
    (hm : ∀ p ∈ m, P p.1) (hk : P key) : ∀ p ∈ recordSet m key v, P p.1 := by
  induction m with
  | nil =>
      intro p hp
      simp only [recordSet, List.mem_singleton] at hp
      subst hp
      exact hk
  | cons q ms ih =>
      intro p hp
      cases hc : (q.1 == key) with
      | true =>
          simp only [recordSet, hc, if_true, List.mem_cons] at hp
          rcases hp with hp | hp
          · subst hp
            exact hk
          · exact hm p (List.mem_cons_of_mem _ hp)
      | false =>
          simp only [recordSet, hc, Bool.false_eq_true, if_false, List.mem_cons] at hp
          rcases hp with hp | hp
          · subst hp
            exact hm p (List.mem_cons_self _ _)
          · exact ih (fun r hr => hm r (List.mem_cons_of_mem _ hr)) p hp

/-- Every key of a merge is a key of one of its operands. -/
theorem recordMerge_keys (P : String → Prop) (a b : List (String × String))
    (ha : ∀ p ∈ a, P p.1) (hb : ∀ p ∈ b, P p.1) : ∀ p ∈ recordMerge a b, P p.1 := by
  induction b generalizing a with
  | nil => exact ha
  | cons p os ih =>
      have step : recordMerge a (p :: os) = recordMerge (recordSet a p.1 p.2) os := rfl
      rw [step]
      exact ih _ (recordSet_keys P a p.1 p.2 ha (hb p (List.mem_cons_self _ _)))
        (fun q hq => hb q (List.mem_cons_of_mem _ hq))

/-- The Content-Type step of `makeRequest` never touches the User-Agent
entry. -/
theorem buildReqHeaders_user_agent (headers : List (String × String)) (hasBody : Bool) :
    recordLookup (buildReqHeaders headers hasBody) "User-Agent"
      = recordLookup (recordMerge [("User-Agent", "api-smoke/1.0.0")] headers)
          "User-Agent" := by
  simp only [buildReqHeaders]
  split
  · exact recordLookup_recordSet_other _ _ _ _ (by decide)
  · rfl

/-- C9 (amended): every dispatched request has a User-Agent header; its
value is the identifying `api-smoke/1.0.0` unless the environment or test
headers themselves set a User-Agent (case-sensitively), in which case that
caller value overrides the default — the default is spread first in
`makeRequest`, so caller headers win. -/
theorem c9_user_agent (test : TestCase) (envHeaders : List (String × String)) :
    (recordLookup (dispatchedHeaders test envHeaders) "User-Agent").isSome = true ∧
    ((∀ p ∈ envHeaders, p.1 ≠ "User-Agent") →
      (∀ p ∈ test.headers.getD [], p.1 ≠ "User-Agent") →
      recordLookup (dispatchedHeaders test envHeaders) "User-Agent"
        = some "api-smoke/1.0.0") := by
  constructor
  · unfold dispatchedHeaders
    rw [buildReqHeaders_user_agent]
    exact recordLookup_recordMerge_isSome _ _ _ (by decide)
  · intro henv htest
    unfold dispatchedHeaders mergedHeaders
    rw [buildReqHeaders_user_agent]
    rw [recordLookup_recordMerge_notin _ _ _
      (recordMerge_keys (fun s => s ≠ "User-Agent") _ _ henv htest)]
    decide

/-- Test case used for the C9 witness: declares its own headers, none of
them a User-Agent. -/
def c9WitnessTest : TestCase :=
  { name := "w", path := "/users", method := "POST",
    headers := some [("Accept", "application/json")],
    body := none, expect := emptyExpect }

/-- C9 witness: with environment and test headers that do not set a
User-Agent, the dispatched request carries `api-smoke/1.0.0`. -/
theorem c9_witness :
    (recordLookup (dispatchedHeaders c9WitnessTest [("Authorization", "Bearer x")])
        "User-Agent").isSome = true ∧
    recordLookup (dispatchedHeaders c9WitnessTest [("Authorization", "Bearer x")])
        "User-Agent" = some "api-smoke/1.0.0" :=
  ⟨(c9_user_agent c9WitnessTest [("Authorization", "Bearer x")]).1,
    (c9_user_agent c9WitnessTest [("Authorization", "Bearer x")]).2 (by decide) (by decide)⟩

/-- Test case used for the C9 counterexample: the test sets its own
User-Agent header. -/
def c9OverrideTest : TestCase :=
  { name := "o", path := "/", method := "GET",
    headers := some [("User-Agent", "custom-agent")],
    body := none, expect := emptyExpect }

/-- C9 counterexample: a test that declares a User-Agent header of its own
is dispatched with that value — not the identifying client value — because
the spread in `makeRequest` lets caller headers override the default. -/
theorem c9_counterexample :
    recordLookup (dispatchedHeaders c9OverrideTest []) "User-Agent" = some "custom-agent" ∧
    recordLookup (dispatchedHeaders c9OverrideTest []) "User-Agent"
      ≠ some "api-smoke/1.0.0" :=
  ⟨by decide, by decide⟩

/-- C10: when the chosen environment name is not a key of the environments
mapping, resolution silently falls back to the environment named "default";
when that is also absent, the base URL resolves to the empty string and the
default headers to the empty record — all total functions, so the run
proceeds without raising. -/
theorem c10_env_fallback (environments : Option (List (String × EnvDef))) (name : String)
    (h : lookupEnvs environments name = none) :
    resolveEnv environments name = lookupEnvs environments "default" ∧
    (lookupEnvs environments "default" = none →
      resolvedBaseUrl environments name = "" ∧
      resolvedEnvHeaders environments name = []) := by
  have h1 : resolveEnv environments name = lookupEnvs environments "default" := by
    unfold resolveEnv
    rw [h]
  refine ⟨h1, fun hd => ⟨?_, ?_⟩⟩
  · unfold resolvedBaseUrl
    rw [h1, hd]
  · unfold resolvedEnvHeaders
    rw [h1, hd]

/-- Environments mapping used for the C10 witness: has a "prod" entry but no
"default" entry. -/
def c10Envs : Option (List (String × EnvDef)) :=
  some [("prod", { baseUrl := "https://prod.example.com", headers := none })]

/-- C10 witness: choosing the absent environment "staging" from a mapping
with no "default" entry resolves to an empty base URL and empty default
headers. -/
theorem c10_witness :
    lookupEnvs c10Envs "staging" = none ∧
    (resolveEnv c10Envs "staging" = lookupEnvs c10Envs "default" ∧
      (lookupEnvs c10Envs "default" = none →
        resolvedBaseUrl c10Envs "staging" = "" ∧
        resolvedEnvHeaders c10Envs "staging" = [])) :=
  ⟨by decide, c10_env_fallback c10Envs "staging" (by decide)⟩

end ApiSmoke
